import Mathlib

/-!
Verification of the `fpb` (FFmpeg progress bar) wrapper.

The definitions below are a shallow embedding of the Go source (`fpb.go`;
for the stderr-buffering and stdin-forwarding parts, the documented build
of the same file that carries `stderrBuffer`, `stdinWriter` and
`forwardUserInput`).  Bytes of the wrapped process's stderr stream are
modelled as `Char`s (all patterns of interest are ASCII); Go `int` is
modelled as `Int`; wall-clock instants are modelled as natural numbers of
milliseconds.  The fixed regular expressions of the program are embedded
as executable leftmost-first matchers over `List Char`, mirroring Go's
regexp semantics (leftmost match; alternation tries the left branch
first; `.*` is greedy).
-/

set_option maxRecDepth 100000

namespace Fpb

/-- The ASCII escape character, written out to avoid escapes in literals. -/
def escChar : Char := Char.ofNat 27

/-- The ASCII single-quote character `'`. -/
def quoteChar : Char := Char.ofNat 39

/-- The bullet `•` (U+2022) used in the rendered trailing info string. -/
def bulletChar : Char := Char.ofNat 8226

/-- Decimal value of a list of digit characters (the digit groups captured
by the patterns are always `\d{2}`, so `strconv.Atoi` never fails). -/
def atoiNat (cs : List Char) : Nat :=
  cs.foldl (fun a c => a * 10 + (c.toNat - 48)) 0

/-- `strconv.Atoi` on an all-digit capture group. -/
def atoi (s : String) : Int := (atoiNat s.data : Nat)

/-- `seconds(hours, minutes, secs string) int` from the source:
`(h*60+m)*60 + s`. -/
def seconds (hours minutes secs : String) : Int :=
  (atoi hours * 60 + atoi minutes) * 60 + atoi secs

/-- Matcher for the timestamp tail `(\d{2}):(\d{2}):(\d{2})\.\d{2}` at the
head of the list; returns the three capture groups. -/
def tsAt : List Char → Option (String × String × String)
  | h1 :: h2 :: ':' :: m1 :: m2 :: ':' :: s1 :: s2 :: '.' :: f1 :: f2 :: _ =>
    if h1.isDigit && h2.isDigit && m1.isDigit && m2.isDigit &&
       s1.isDigit && s2.isDigit && f1.isDigit && f2.isDigit then
      some (⟨[h1, h2]⟩, ⟨[m1, m2]⟩, ⟨[s1, s2]⟩)
    else
      none
  | _ => none

/-- Leftmost search for `<label>(\d{2}):(\d{2}):(\d{2})\.\d{2}` (used for
both `durationRx` with label `"Duration: "` and `progressRx` with label
`"time="`). -/
def findLabeledTS (label : List Char) : List Char → Option (String × String × String)
  | [] => none
  | c :: rest =>
    match (if label.isPrefixOf (c :: rest) then tsAt ((c :: rest).drop label.length) else none) with
    | some g => some g
    | none => findLabeledTS label rest

/-- `getDuration`: first match of `Duration: (\d{2}):(\d{2}):(\d{2})\.\d{2}`
converted via `seconds`, else `0`. -/
def getDuration (line : String) : Int :=
  match findLabeledTS "Duration: ".data line.data with
  | some (h, m, s) => seconds h m s
  | none => 0

/-- The greedy group of `from '(.*)':`: longest prefix `p` of the input
such that `p` is immediately followed by `':` (quote then colon). -/
def lastSplitQC : List Char → Option (List Char)
  | [] => none
  | c :: rest =>
    match lastSplitQC rest with
    | some p => some (c :: p)
    | none =>
      if c = quoteChar then
        match rest with
        | c2 :: _ => if c2 = ':' then some [] else none
        | [] => none
      else none

/-- Leftmost search for `from '(.*)':`, returning the greedy capture. -/
def findSource : List Char → Option (List Char)
  | [] => none
  | c :: rest =>
    match (if ("from ".data ++ [quoteChar]).isPrefixOf (c :: rest) then
             lastSplitQC ((c :: rest).drop 6)
           else none) with
    | some g => some g
    | none => findSource rest

/-- `filepath.Base` (POSIX rules, as used on the quoted source path):
empty path gives `"."`; trailing slashes are dropped; an all-slash path
gives `"/"`; otherwise everything after the last slash. -/
def basename (s : String) : String :=
  if s.data = [] then "." else
  let cs := (s.data.reverse.dropWhile (· = '/')).reverse
  if cs = [] then "/" else ⟨(cs.reverse.takeWhile (· ≠ '/')).reverse⟩

/-- `getSource`: basename of the first `from '(.*)':` capture, else `""`. -/
def getSource (line : String) : String :=
  match findSource line.data with
  | some g => basename ⟨g⟩
  | none => ""

/-- Second alternative of `fpsRx` at the head: `\d{2} fps`. -/
def fpsAlt2 : List Char → Option (List Char)
  | a :: b :: ' ' :: 'f' :: 'p' :: 's' :: _ =>
    if a.isDigit && b.isDigit then some [a, b] else none
  | _ => none

/-- `fpsRx = (\d{2}\.\d{2}|\d{2}) fps` at the head: the left alternative
`\d{2}\.\d{2}` is tried first, as in Go's leftmost-first matching. -/
def fpsAt (l : List Char) : Option (List Char) :=
  match l with
  | a :: b :: '.' :: c :: d :: ' ' :: 'f' :: 'p' :: 's' :: _ =>
    if a.isDigit && b.isDigit && c.isDigit && d.isDigit then some [a, b, '.', c, d]
    else fpsAlt2 l
  | _ => fpsAlt2 l

/-- Leftmost search for `fpsRx`. -/
def findFPS : List Char → Option (List Char)
  | [] => none
  | c :: rest =>
    match fpsAt (c :: rest) with
    | some g => some g
    | none => findFPS rest

/-- `strconv.ParseFloat` of an `fpsRx` capture (`dd` or `dd.dd`) followed
by Go's truncating `int(...)` conversion: the integer part. -/
def truncFPS (g : List Char) : Int := (atoiNat (g.takeWhile Char.isDigit) : Nat)

/-- `getFPS`: truncated frame rate from the first `fpsRx` match, else `0`. -/
def getFPS (line : String) : Int :=
  match findFPS line.data with
  | some g => truncFPS g
  | none => 0

/-! ## The progress bar (`ProgressBar`)

Instants are naturals (milliseconds).  `lastUpdate` starts out as `none`,
modelling Go's zero `time.Time`, from which the elapsed span is always at
least the 50ms `updateDelay`, so the first `Update` renders. -/

/-- State of a `ProgressBar`.  The `startTime` and output writer are not
needed by any property below and are omitted; `updateDelay` is the fixed
50ms constant. -/
structure PBar where
  total : Int
  current : Int
  desc : String
  unit : String
  useColors : Bool
  lastUpdate : Option Nat
  deriving DecidableEq, Repr

/-- `NewProgressBar(desc, total, unit, useColors, file)`. -/
def NewProgressBar (desc : String) (total : Int) (unit : String) (useColors : Bool) : PBar :=
  { total := total, current := 0, desc := desc, unit := unit
    useColors := useColors, lastUpdate := none }

/-- `Update(current)`: store the value; render (and stamp `lastUpdate`)
only when at least 50ms have passed since the previous render.  The
boolean result records whether `render` was called. -/
def PBar.update (now : Nat) (pb : PBar) (current : Int) : PBar × Bool :=
  let pb := { pb with current := current }
  match pb.lastUpdate with
  | some t => if now - t < 50 then (pb, false) else ({ pb with lastUpdate := some now }, true)
  | none => ({ pb with lastUpdate := some now }, true)

/-- `Finish()`: force `current = total` and render unconditionally. -/
def PBar.finish (pb : PBar) : PBar × Bool :=
  ({ pb with current := pb.total }, true)

/-- The percentage computed at the top of `render`:
`current/total*100`, forced to `0` when `total == 0`. -/
def PBar.percentage (pb : PBar) : ℚ :=
  if pb.total = 0 then 0 else (pb.current : ℚ) / (pb.total : ℚ) * 100

/-- Run a sequence of timed `Update` calls, collecting the instants at
which a render actually happened. -/
def PBar.runUpdates (pb : PBar) : List (Nat × Int) → PBar × List Nat
  | [] => (pb, [])
  | (now, c) :: rest =>
    let r := PBar.update now pb c
    let tl := PBar.runUpdates r.1 rest
    (tl.1, (if r.2 then [now] else []) ++ tl.2)

/-! ## The notifier (`ColoredProgressNotifier`) -/

/-- ANSI color constants from `NewColors`, as character lists. -/
def resetS : List Char := [escChar, '[', '0', 'm']

/-- `Bold = "\x1b[1m"`. -/
def boldS : List Char := [escChar, '[', '1', 'm']

/-- `Yellow = "\x1b[33m"`. -/
def yellowS : List Char := [escChar, '[', '3', '3', 'm']

/-- `Red = "\x1b[31m"`. -/
def redS : List Char := [escChar, '[', '3', '1', 'm']

/-- `Blue = "\x1b[34m"`. -/
def blueS : List Char := [escChar, '[', '3', '4', 'm']

/-- `BrightYellow = "\x1b[93m"`. -/
def brightYellowS : List Char := [escChar, '[', '9', '3', 'm']

/-- State of a `ColoredProgressNotifier`.  The compiled regexes are the
fixed matchers above; the output writer and the stdin pipe are modelled
through the per-call effects. -/
structure CPN where
  lines : List String
  lineAcc : String
  duration : Int
  source : String
  started : Bool
  pbar : Option PBar
  fps : Int
  useColors : Bool
  stderrBuffer : String
  waitingForInput : Bool
  deriving DecidableEq, Repr

/-- `NewColoredProgressNotifier`.  `useColors` here is the already
resolved conjunction `useColors && supportsColor(file)` (the platform and
terminal check is environment input). -/
def NewCPN (useColors : Bool) : CPN :=
  { lines := [], lineAcc := ⟨[]⟩, duration := 0, source := "", started := false
    pbar := none, fps := 0, useColors := useColors
    stderrBuffer := ⟨[]⟩, waitingForInput := false }

/-- `newline()`: finalize the accumulator into the line history and reset
it, returning the completed line. -/
def CPN.newline (s : CPN) : String × CPN :=
  (s.lineAcc, { s with lines := s.lines ++ [s.lineAcc], lineAcc := ⟨[]⟩ })

/-- `progress(line)`: on a `time=` match, build the sample (scaling both
`current` and a known `total` by a learned frame rate), lazily construct
the progress bar, and forward the current value to `Update`. -/
def CPN.progress (now : Nat) (s : CPN) (line : String) : CPN :=
  match findLabeledTS "time=".data line.data with
  | none => s
  | some (h, m, sec) =>
    let total := s.duration
    let current := seconds h m sec
    let unit := "seconds"
    let current := if s.fps > 0 then current * s.fps else current
    let total := if s.fps > 0 then (if total > 0 then total * s.fps else total) else total
    let unit := if s.fps > 0 then "frames" else unit
    let pb :=
      match s.pbar with
      | some pb => pb
      | none =>
        NewProgressBar (if s.source = "" then "Processing" else s.source) total unit s.useColors
    { s with pbar := some (PBar.update now pb current).1 }

/-- Per-call observable effects of `ProcessChar`: the bytes written to the
notifier's output stream, and whether a `forwardUserInput` goroutine was
spawned. -/
structure Effects where
  display : String
  spawned : Bool
  deriving DecidableEq, Repr

/-- The fixed confirmation-prompt suffix. -/
def promptSuffix : String := "[y/N] "

/-- `strings.HasSuffix`. -/
def hasSuffix (s suffix : String) : Bool :=
  suffix.data.isSuffixOf s.data

/-- The extractor chain run by `ProcessChar` on a completed line: each of
`duration`, `source` and `fps` is re-parsed only while it still holds its
zero value, then `progress` runs. -/
def CPN.parseLine (now : Nat) (s : CPN) (line : String) : CPN :=
  let s := if s.duration = 0 then { s with duration := getDuration line } else s
  let s := if s.source = "" then { s with source := getSource line } else s
  let s := if s.fps = 0 then { s with fps := getFPS line } else s
  s.progress now line

/-- `ProcessChar(char)` (documented build): buffer every byte into
`stderrBuffer`; on CR/LF finalize the line and run the extractors (each
guarded by its field still holding the zero value) and `progress`; on any
other byte append to the accumulator and, when it now ends with the
prompt suffix, echo the whole accumulator, mark the pending forward,
spawn the forwarding goroutine, and finalize the line. -/
def CPN.processChar (now : Nat) (s : CPN) (c : Char) : CPN × Effects :=
  let s := { s with stderrBuffer := ⟨s.stderrBuffer.data ++ [c]⟩ }
  if c = '\r' ∨ c = '\n' then
    let r := s.newline
    (CPN.parseLine now r.2 r.1, { display := ⟨[]⟩, spawned := false })
  else
    let s := { s with lineAcc := ⟨s.lineAcc.data ++ [c]⟩ }
    if hasSuffix s.lineAcc promptSuffix then
      let prompt := s.lineAcc
      let out : String :=
        if s.useColors then ⟨brightYellowS ++ boldS ++ prompt.data ++ resetS⟩ else prompt
      let s := { s with waitingForInput := true }
      ((s.newline).2, { display := out, spawned := true })
    else
      (s, { display := ⟨[]⟩, spawned := false })

/-- Feed a list of bytes through `ProcessChar` (the reading loop of
`main`), discarding the per-call effects. -/
def CPN.processChars (now : Nat) (s : CPN) : List Char → CPN
  | [] => s
  | c :: cs => CPN.processChars now (s.processChar now c).1 cs

/-! ## Prompt forwarding, exit paths -/

/-- `bufio.Reader.ReadString('\n')` on the available user input: the
prefix up to and including the first newline, or `none` when the input
ends (read error) before a newline is seen. -/
def readLine : List Char → Option (List Char)
  | [] => none
  | c :: rest =>
    if c = '\n' then some ['\n']
    else
      match readLine rest with
      | some l => some (c :: l)
      | none => none

/-- `forwardUserInput`: the lines written to the wrapped process's stdin,
as a function of the available user input.  A failed read writes
nothing. -/
def forwardUserInput (input : String) : List String :=
  match readLine input.data with
  | some l => [⟨l⟩]
  | none => []

/-- The tail of `main` after the reading loop finished cleanly: given the
buffered stderr content and the wrapped process's exit status, the pair
of (bytes replayed to the program's stderr, program exit status).  A
non-zero status replays the buffer (when non-empty) and propagates the
status; a zero status exits 0 with nothing replayed. -/
def waitOutcome (buf : String) (code : Int) : String × Int :=
  if code ≠ 0 then (if buf = "" then "" else buf, code) else ("", 0)

/-- Signal number of `os.Interrupt` (`SIGINT`). -/
def sigint : Nat := 2

/-- Signal number of `syscall.SIGTERM`. -/
def sigterm : Nat := 15

/-- The set of signals subscribed via `signal.Notify`. -/
def subscribedSignals : List Nat := [sigint, sigterm]

/-- The `<-sigChan` branch of `main`'s `select`: kill the wrapped process
(the boolean) and exit with `128 + int(syscall.SIGINT)`, whatever signal
arrived. -/
def signalCase (_received : Nat) : Bool × Nat :=
  (true, 128 + sigint)

/-! ## `stripANSI` and the rendered trailing-info string

`stripANSI` is the two-pass width-measuring strip of `render`: first all
matches of the escape pattern `\x1b\[[0-9;]*[mGKHfABCDEFGJSTuhlp]` are
removed, then every non-ASCII rune is replaced by a single space. -/

/-- A character of the `[0-9;]*` parameter part of the escape pattern. -/
def isCsiParam (c : Char) : Bool := c.isDigit || c = ';'

/-- A final character of the escape pattern's `[mGKHfABCDEFGJSTuhlp]`
class. -/
def isCsiFinal (c : Char) : Bool :=
  ['m', 'G', 'K', 'H', 'f', 'A', 'B', 'C', 'D', 'E', 'F', 'J', 'S', 'T', 'u', 'h', 'l', 'p'].contains c

/-- Match the escape pattern right after an observed `\x1b`: a `[`, then
greedily `[0-9;]*`, then one final character; returns the rest of the
input past the match. -/
def matchEscTail : List Char → Option (List Char)
  | [] => none
  | c :: rest =>
    if c = '[' then
      match rest.dropWhile isCsiParam with
      | c2 :: rest2 => if isCsiFinal c2 then some rest2 else none
      | [] => none
    else none

theorem length_dropWhile_le (p : Char → Bool) (l : List Char) :
    (l.dropWhile p).length ≤ l.length := by
  induction l with
  | nil => simp
  | cons c rest ih =>
    rw [List.dropWhile_cons]
    split
    · exact ih.trans (by simp)
    · simp

theorem matchEscTail_length {l l' : List Char} (h : matchEscTail l = some l') :
    l'.length < l.length := by
  cases l with
  | nil => simp [matchEscTail] at h
  | cons c rest =>
    simp only [matchEscTail] at h
    by_cases hc : c = '['
    · rw [if_pos hc] at h
      have hs := length_dropWhile_le isCsiParam rest
      rcases hh : rest.dropWhile isCsiParam with _ | ⟨c2, rest2⟩ <;> rw [hh] at h
      · simp at h
      · rw [hh] at hs
        have h' : (if isCsiFinal c2 then some rest2 else none) = some l' := h
        rcases hf : isCsiFinal c2 <;> rw [hf] at h'
        · simp at h'
        · obtain rfl : rest2 = l' := by simpa using h'
          simp only [List.length_cons] at hs ⊢
          omega
    · rw [if_neg hc] at h; simp at h

/-- First pass of `stripANSI`: remove every leftmost, non-overlapping
match of the escape pattern. -/
def stripEscAux : List Char → List Char
  | [] => []
  | c :: rest =>
    if c = escChar then
      match h : matchEscTail rest with
      | some rest2 => stripEscAux rest2
      | none => c :: stripEscAux rest
    else c :: stripEscAux rest
termination_by l => l.length
decreasing_by
  · exact Nat.lt_succ_of_lt (matchEscTail_length h)
  · exact Nat.lt_succ_self _
  · exact Nat.lt_succ_self _

/-- Second pass of `stripANSI`: replace every rune outside `\x00-\x7F`
with a single space. -/
def asciiFilter (l : List Char) : List Char :=
  l.map (fun c => if 127 < c.toNat then ' ' else c)

/-- `stripANSI` on character lists. -/
def stripANSIL (l : List Char) : List Char := asciiFilter (stripEscAux l)

/-- `stripANSI(str)`. -/
def stripANSI (s : String) : String := ⟨stripANSIL s.data⟩

/-! Formatting helpers used to compose the trailing info string (the
`fmt.Sprintf` verbs `%.1f`, `%d`, `%.0f`, `%02d`). -/

/-- One decimal digit character. -/
def dChar (n : Nat) : Char :=
  if n = 0 then '0' else if n = 1 then '1' else if n = 2 then '2'
  else if n = 3 then '3' else if n = 4 then '4' else if n = 5 then '5'
  else if n = 6 then '6' else if n = 7 then '7' else if n = 8 then '8' else '9'

/-- Decimal digits of a natural number, most significant first, prepended
to `acc`. -/
def natToCharsAux (n : Nat) (acc : List Char) : List Char :=
  if n < 10 then dChar n :: acc
  else natToCharsAux (n / 10) (dChar (n % 10) :: acc)
termination_by n
decreasing_by
  exact Nat.div_lt_self (by omega) (by omega)

/-- Decimal representation of a natural number. -/
def natStr (n : Nat) : String := ⟨natToCharsAux n []⟩

/-- `%d` on a (possibly negative) integer. -/
def intStr (i : Int) : String :=
  if i < 0 then ⟨'-' :: natToCharsAux i.natAbs []⟩ else natStr i.toNat

/-- Rounding to the nearest integer, as done by `%.Nf` formatting. -/
def roundQ (q : ℚ) : Int := ⌊q + 1 / 2⌋

/-- `%.1f`. -/
def fmt1 (q : ℚ) : String :=
  let n := roundQ (q * 10)
  (if n < 0 then "-" else "") ++ natStr (n.natAbs / 10) ++ "." ++ ⟨[dChar (n.natAbs % 10)]⟩

/-- `%.0f`. -/
def fmt0 (q : ℚ) : String := intStr (roundQ q)

/-- `%02d`. -/
def pad2 (n : Nat) : List Char :=
  if n < 10 then '0' :: [dChar n] else natToCharsAux n []

/-- `formatDurationSimple`: `MM:SS`, clamped to `00:00` for negative
durations.  The argument is in nanoseconds (Go's `time.Duration`). -/
def formatDurationSimple (d : Int) : String :=
  if d < 0 then "00:00"
  else
    let totalSeconds := d.toNat / 1000000000
    ⟨pad2 (totalSeconds / 60) ++ ':' :: pad2 (totalSeconds % 60)⟩

/-- The ` • ` separator of the trailing info string. -/
def sepS : List Char := [' ', bulletChar, ' ']

/-- The `rightInfo` string of `render`, as a character list: either the
colored layout ` %s%.1f%%%s • %d/%d • %s%.0ffps%s • ETA %s%s%s` or the
plain layout ` %.1f%% • %d/%d • %.0ffps • ETA %s`. -/
def rightInfoChars (useColors : Bool) (percentage : ℚ) (current total : Int)
    (rate : ℚ) (remaining : Int) : List Char :=
  if useColors then
    " ".data ++ yellowS ++ (fmt1 percentage).data ++ "%".data ++ resetS
      ++ sepS ++ (intStr current).data ++ "/".data ++ (intStr total).data
      ++ sepS ++ redS ++ (fmt0 rate).data ++ "fps".data ++ resetS
      ++ sepS ++ "ETA ".data ++ blueS ++ (formatDurationSimple remaining).data ++ resetS
  else
    " ".data ++ (fmt1 percentage).data ++ "%".data
      ++ sepS ++ (intStr current).data ++ "/".data ++ (intStr total).data
      ++ sepS ++ (fmt0 rate).data ++ "fps".data
      ++ sepS ++ "ETA ".data ++ (formatDurationSimple remaining).data

/-- The `rightInfo` string of `render`. -/
def rightInfoStr (useColors : Bool) (percentage : ℚ) (current total : Int)
    (rate : ℚ) (remaining : Int) : String :=
  ⟨rightInfoChars useColors percentage current total rate remaining⟩

/-- Absence of the escape character in a character list (escape-free
text passes the first strip pass unchanged). -/
def noEscL (l : List Char) : Prop := ∀ c ∈ l, c ≠ escChar

instance noEscL_decidable (l : List Char) : Decidable (noEscL l) :=
  List.decidableBAll _ l

/-! ## Concrete fixtures for the scenarios below -/

/-- A single-quote string, to compose lines containing quoted paths. -/
def sq : String := ⟨[quoteChar]⟩

/-- The frame-rate line of end-to-end scenario 2. -/
def fpsLine : String := "29.97 fps"

/-- The duration line of the end-to-end scenarios. -/
def durLine : String := "Duration: 00:01:30.00"

/-- The source line of the end-to-end scenarios: `from 'clip.mp4':`. -/
def srcLine : String := "from " ++ sq ++ "clip.mp4" ++ sq ++ ":"

/-- A progress line at 45 seconds. -/
def timeLine45 : String := "time=00:00:45.00"

/-- A progress line at 30 seconds. -/
def timeLine30 : String := "time=00:00:30.00"

/-- The full byte stream of end-to-end scenario 2. -/
def scenario2Input : List Char :=
  fpsLine.data ++ ['\n'] ++ durLine.data ++ ['\n'] ++ srcLine.data ++ ['\n']
    ++ timeLine45.data ++ ['\n']

/-- A duration line whose timestamp is below one second. -/
def zeroDurLine : String := "Duration: 00:00:00.99"

/-- A duration line of one minute. -/
def oneMinDurLine : String := "Duration: 00:01:00.00"

/-- A notifier state whose in-progress buffer is one byte short of the
prompt suffix. -/
def promptState : CPN := { NewCPN false with lineAcc := "Overwrite? [y/N]" }

/-- A freshly constructed sample progress bar. -/
def samplePBar : PBar := NewProgressBar "clip.mp4" 100 "seconds" false

/-- The sample progress bar after a render at instant 100. -/
def samplePBar2 : PBar := { samplePBar with lastUpdate := some 100 }

/-- A notifier state with all three extracted facts already known. -/
def knownState : CPN :=
  { NewCPN false with duration := 90, source := "clip.mp4", fps := 29 }

/-! # Helper lemmas -/

theorem progress_lines (now : Nat) (s : CPN) (line : String) :
    (s.progress now line).lines = s.lines := by
  unfold CPN.progress; split <;> rfl

theorem progress_lineAcc (now : Nat) (s : CPN) (line : String) :
    (s.progress now line).lineAcc = s.lineAcc := by
  unfold CPN.progress; split <;> rfl

theorem progress_duration (now : Nat) (s : CPN) (line : String) :
    (s.progress now line).duration = s.duration := by
  unfold CPN.progress; split <;> rfl

theorem progress_source (now : Nat) (s : CPN) (line : String) :
    (s.progress now line).source = s.source := by
  unfold CPN.progress; split <;> rfl

theorem progress_fps (now : Nat) (s : CPN) (line : String) :
    (s.progress now line).fps = s.fps := by
  unfold CPN.progress; split <;> rfl

theorem progress_stderrBuffer (now : Nat) (s : CPN) (line : String) :
    (s.progress now line).stderrBuffer = s.stderrBuffer := by
  unfold CPN.progress; split <;> rfl

theorem parseLine_lines (now : Nat) (s : CPN) (line : String) :
    (CPN.parseLine now s line).lines = s.lines := by
  simp only [CPN.parseLine, progress_lines]
  split_ifs <;> rfl

theorem parseLine_lineAcc (now : Nat) (s : CPN) (line : String) :
    (CPN.parseLine now s line).lineAcc = s.lineAcc := by
  simp only [CPN.parseLine, progress_lineAcc]
  split_ifs <;> rfl

theorem parseLine_stderrBuffer (now : Nat) (s : CPN) (line : String) :
    (CPN.parseLine now s line).stderrBuffer = s.stderrBuffer := by
  simp only [CPN.parseLine, progress_stderrBuffer]
  split_ifs <;> rfl

theorem parseLine_duration_frozen (now : Nat) (s : CPN) (line : String)
    (h : s.duration ≠ 0) :
    (CPN.parseLine now s line).duration = s.duration := by
  simp only [CPN.parseLine, progress_duration]
  rw [if_neg h]
  split_ifs <;> rfl

theorem parseLine_source_frozen (now : Nat) (s : CPN) (line : String)
    (h : s.source ≠ "") :
    (CPN.parseLine now s line).source = s.source := by
  simp only [CPN.parseLine, progress_source]
  split_ifs <;> rfl

theorem parseLine_fps_frozen (now : Nat) (s : CPN) (line : String)
    (h : s.fps ≠ 0) :
    (CPN.parseLine now s line).fps = s.fps := by
  simp only [CPN.parseLine, progress_fps]
  split_ifs <;> rfl

/-- A CR or LF byte runs the terminator branch of `ProcessChar`. -/
theorem processChar_term (now : Nat) (s : CPN) (c : Char)
    (h : c = '\r' ∨ c = '\n') :
    s.processChar now c =
      (CPN.parseLine now
        { s with stderrBuffer := ⟨s.stderrBuffer.data ++ [c]⟩,
                 lines := s.lines ++ [s.lineAcc], lineAcc := ⟨[]⟩ }
        s.lineAcc,
       { display := ⟨[]⟩, spawned := false }) := by
  rcases h with rfl | rfl <;> rfl

/-- A non-terminator byte that completes the prompt suffix runs the
prompt branch of `ProcessChar`. -/
theorem processChar_prompt (now : Nat) (s : CPN) (c : Char)
    (h1 : ¬(c = '\r' ∨ c = '\n'))
    (h2 : hasSuffix ⟨s.lineAcc.data ++ [c]⟩ promptSuffix = true) :
    s.processChar now c =
      ({ s with stderrBuffer := ⟨s.stderrBuffer.data ++ [c]⟩,
                lines := s.lines ++ [⟨s.lineAcc.data ++ [c]⟩], lineAcc := ⟨[]⟩,
                waitingForInput := true },
       { display :=
           if s.useColors then ⟨brightYellowS ++ boldS ++ (s.lineAcc.data ++ [c]) ++ resetS⟩
           else ⟨s.lineAcc.data ++ [c]⟩,
         spawned := true }) := by
  simp only [CPN.processChar, CPN.newline]
  rw [if_neg h1]
  simp only [h2, if_true]

/-- A non-terminator byte that does not complete the prompt suffix only
extends the accumulator (and the stderr buffer). -/
theorem processChar_plain (now : Nat) (s : CPN) (c : Char)
    (h1 : ¬(c = '\r' ∨ c = '\n'))
    (h2 : hasSuffix ⟨s.lineAcc.data ++ [c]⟩ promptSuffix = false) :
    s.processChar now c =
      ({ s with stderrBuffer := ⟨s.stderrBuffer.data ++ [c]⟩,
                lineAcc := ⟨s.lineAcc.data ++ [c]⟩ },
       { display := ⟨[]⟩, spawned := false }) := by
  simp only [CPN.processChar, CPN.newline]
  rw [if_neg h1]
  simp only [h2, Bool.false_eq_true, if_false]

theorem processChar_duration_frozen (now : Nat) (s : CPN) (c : Char)
    (h : s.duration ≠ 0) :
    (s.processChar now c).1.duration = s.duration := by
  by_cases h1 : c = '\r' ∨ c = '\n'
  · rw [processChar_term now s c h1]
    exact parseLine_duration_frozen now _ _ h
  · rcases h2 : hasSuffix ⟨s.lineAcc.data ++ [c]⟩ promptSuffix
    · rw [processChar_plain now s c h1 h2]
    · rw [processChar_prompt now s c h1 h2]

theorem processChar_source_frozen (now : Nat) (s : CPN) (c : Char)
    (h : s.source ≠ "") :
    (s.processChar now c).1.source = s.source := by
  by_cases h1 : c = '\r' ∨ c = '\n'
  · rw [processChar_term now s c h1]
    exact parseLine_source_frozen now _ _ h
  · rcases h2 : hasSuffix ⟨s.lineAcc.data ++ [c]⟩ promptSuffix
    · rw [processChar_plain now s c h1 h2]
    · rw [processChar_prompt now s c h1 h2]

theorem processChar_fps_frozen (now : Nat) (s : CPN) (c : Char)
    (h : s.fps ≠ 0) :
    (s.processChar now c).1.fps = s.fps := by
  by_cases h1 : c = '\r' ∨ c = '\n'
  · rw [processChar_term now s c h1]
    exact parseLine_fps_frozen now _ _ h
  · rcases h2 : hasSuffix ⟨s.lineAcc.data ++ [c]⟩ promptSuffix
    · rw [processChar_plain now s c h1 h2]
    · rw [processChar_prompt now s c h1 h2]

theorem processChar_stderrBuffer (now : Nat) (s : CPN) (c : Char) :
    ((s.processChar now c).1.stderrBuffer).data = s.stderrBuffer.data ++ [c] := by
  by_cases h1 : c = '\r' ∨ c = '\n'
  · rw [processChar_term now s c h1, parseLine_stderrBuffer]
  · rcases h2 : hasSuffix ⟨s.lineAcc.data ++ [c]⟩ promptSuffix
    · rw [processChar_plain now s c h1 h2]
    · rw [processChar_prompt now s c h1 h2]

theorem readLine_split (a b : List Char) (ha : '\n' ∉ a) :
    readLine (a ++ '\n' :: b) = some (a ++ ['\n']) := by
  induction a with
  | nil => simp [readLine]
  | cons c a ih =>
    have hc : ¬c = '\n' := fun h => ha (h ▸ List.mem_cons_self c a)
    have ha' : '\n' ∉ a := fun h => ha (List.mem_cons_of_mem c h)
    simp only [List.cons_append, readLine, if_neg hc]
    rw [show List.append a ('\n' :: b) = a ++ '\n' :: b from rfl, ih ha']

/-! # Claims -/

/-- Claim C9: every CR or LF byte finalizes the in-progress buffer as a
completed line, even when the buffer is empty, and leaves the in-progress
buffer empty; consequently a CR immediately followed by LF appends two
completed lines to the history, the second of which is empty. -/
theorem c9_terminator_always_finalizes (now : Nat) (s : CPN) (c : Char)
    (h : c = '\r' ∨ c = '\n') :
    ((s.processChar now c).1.lines = s.lines ++ [s.lineAcc]
      ∧ (s.processChar now c).1.lineAcc = "")
    ∧ (s.processChars now ['\r', '\n']).lines = s.lines ++ [s.lineAcc, ""]
    ∧ (s.processChars now ['\r', '\n']).lineAcc = "" := by
  have step : ∀ (s' : CPN) (c' : Char), c' = '\r' ∨ c' = '\n' →
      (s'.processChar now c').1.lines = s'.lines ++ [s'.lineAcc]
        ∧ (s'.processChar now c').1.lineAcc = "" := by
    intro s' c' h'
    rw [processChar_term now s' c' h']
    exact ⟨parseLine_lines now _ _, parseLine_lineAcc now _ _⟩
  have cr := step s '\r' (Or.inl rfl)
  refine ⟨step s c h, ?_, ?_⟩
  · show ((((s.processChar now '\r').1).processChar now '\n').1).lines = _
    rw [(step _ '\n' (Or.inr rfl)).1, (step s '\r' (Or.inl rfl)).1,
        (step s '\r' (Or.inl rfl)).2]
    simp
  · show ((((s.processChar now '\r').1).processChar now '\n').1).lineAcc = _
    rw [(step _ '\n' (Or.inr rfl)).2]

/-- Claim C9 witness: concrete instance with a non-empty buffer. -/
theorem c9_terminator_always_finalizes_witness :
    (((promptState.processChar 0 '\r').1.lines = promptState.lines ++ [promptState.lineAcc]
        ∧ (promptState.processChar 0 '\r').1.lineAcc = "")
      ∧ (promptState.processChars 0 ['\r', '\n']).lines
          = promptState.lines ++ [promptState.lineAcc, ""]
      ∧ (promptState.processChars 0 ['\r', '\n']).lineAcc = "") :=
  c9_terminator_always_finalizes 0 promptState '\r' (Or.inl rfl)

/-- Claim C10: a byte that completes the prompt suffix `"[y/N] "`
finalizes the in-progress line into the history and resets the
accumulator without running any fact extraction: `duration`, `source`,
`fps` and the progress-bar state are unchanged. -/
theorem c10_prompt_byte_no_extraction (now : Nat) (s : CPN) (c : Char)
    (h1 : ¬(c = '\r' ∨ c = '\n'))
    (h2 : hasSuffix ⟨s.lineAcc.data ++ [c]⟩ promptSuffix = true) :
    (s.processChar now c).1.lines = s.lines ++ [⟨s.lineAcc.data ++ [c]⟩]
    ∧ (s.processChar now c).1.lineAcc = ""
    ∧ (s.processChar now c).1.duration = s.duration
    ∧ (s.processChar now c).1.source = s.source
    ∧ (s.processChar now c).1.fps = s.fps
    ∧ (s.processChar now c).1.pbar = s.pbar := by
  rw [processChar_prompt now s c h1 h2]
  exact ⟨rfl, rfl, rfl, rfl, rfl, rfl⟩

/-- Claim C10 witness: the space completing `"Overwrite? [y/N] "`. -/
theorem c10_prompt_byte_no_extraction_witness :
    (promptState.processChar 0 ' ').1.lines
        = promptState.lines ++ [⟨promptState.lineAcc.data ++ [' ']⟩]
    ∧ (promptState.processChar 0 ' ').1.lineAcc = ""
    ∧ (promptState.processChar 0 ' ').1.duration = promptState.duration
    ∧ (promptState.processChar 0 ' ').1.source = promptState.source
    ∧ (promptState.processChar 0 ' ').1.fps = promptState.fps
    ∧ (promptState.processChar 0 ' ').1.pbar = promptState.pbar :=
  c10_prompt_byte_no_extraction 0 promptState ' ' (by decide) (by decide)

/-- Claim C2: when the in-progress buffer comes to end exactly with the
suffix `"[y/N] "`, `ProcessChar` echoes the full buffer to the display
(plain, or wrapped in bright-yellow/bold when colors are on), finalizes
the line, and spawns the asynchronous forward; the forward reads exactly
one line through its terminator from the user input device and writes
that line verbatim, terminator included, to the wrapped process's input
stream, and a failed read (no terminator available) writes nothing. -/
theorem c2_prompt_echo_and_forward (now : Nat) (s : CPN) (c : Char)
    (h1 : ¬(c = '\r' ∨ c = '\n'))
    (h2 : hasSuffix ⟨s.lineAcc.data ++ [c]⟩ promptSuffix = true) :
    ((s.processChar now c).2.spawned = true
      ∧ (s.processChar now c).2.display =
          (if s.useColors then ⟨brightYellowS ++ boldS ++ (s.lineAcc.data ++ [c]) ++ resetS⟩
           else ⟨s.lineAcc.data ++ [c]⟩)
      ∧ (s.processChar now c).1.lines = s.lines ++ [⟨s.lineAcc.data ++ [c]⟩]
      ∧ (s.processChar now c).1.lineAcc = "")
    ∧ (∀ a b : List Char, '\n' ∉ a → forwardUserInput ⟨a ++ '\n' :: b⟩ = [⟨a ++ ['\n']⟩])
    ∧ (∀ input : String, readLine input.data = none → forwardUserInput input = []) := by
  refine ⟨?_, ?_, ?_⟩
  · rw [processChar_prompt now s c h1 h2]
    exact ⟨rfl, rfl, rfl, rfl⟩
  · intro a b ha
    unfold forwardUserInput
    rw [show (String.mk (a ++ '\n' :: b)).data = a ++ '\n' :: b from rfl,
        readLine_split a b ha]
  · intro input h
    unfold forwardUserInput
    rw [h]

/-- Claim C2 witness: completing the prompt, then forwarding the input
`"y\n"` (and the failing read on terminator-free input `"y"`). -/
theorem c2_prompt_echo_and_forward_witness :
    (((promptState.processChar 0 ' ').2.spawned = true
      ∧ (promptState.processChar 0 ' ').2.display =
          (if promptState.useColors
           then ⟨brightYellowS ++ boldS ++ (promptState.lineAcc.data ++ [' ']) ++ resetS⟩
           else ⟨promptState.lineAcc.data ++ [' ']⟩)
      ∧ (promptState.processChar 0 ' ').1.lines
          = promptState.lines ++ [⟨promptState.lineAcc.data ++ [' ']⟩]
      ∧ (promptState.processChar 0 ' ').1.lineAcc = "")
    ∧ (∀ a b : List Char, '\n' ∉ a → forwardUserInput ⟨a ++ '\n' :: b⟩ = [⟨a ++ ['\n']⟩])
    ∧ (∀ input : String, readLine input.data = none → forwardUserInput input = []))
    ∧ forwardUserInput "y\n" = ["y\n"] ∧ forwardUserInput "y" = [] := by
  refine ⟨c2_prompt_echo_and_forward 0 promptState ' ' (by decide) (by decide), ?_, ?_⟩
  · exact (c2_prompt_echo_and_forward 0 promptState ' ' (by decide) (by decide)).2.1
      ['y'] [] (by decide)
  · exact (c2_prompt_echo_and_forward 0 promptState ' ' (by decide) (by decide)).2.2
      "y" (by decide)

/-- Claim C4 counterexample: the line `Duration: 00:00:00.99` matches the
duration pattern (a successful parse, of value 0 seconds), yet a later
matching line changes the session's duration field from 0 to 60 — so the
field is not set once and for all at the first successful parse. -/
theorem c4_counterexample :
    (findLabeledTS "Duration: ".data zeroDurLine.data).isSome = true
    ∧ getDuration zeroDurLine = 0
    ∧ ((NewCPN false).processChars 0 (zeroDurLine.data ++ ['\n'])).duration = 0
    ∧ (((NewCPN false).processChars 0 (zeroDurLine.data ++ ['\n'])).processChars 0
        (oneMinDurLine.data ++ ['\n'])).duration = 60 := by
  refine ⟨rfl, rfl, rfl, rfl⟩

/-- Claim C4, amended: once a session field holds a non-sentinel value
(non-zero duration, non-empty source, non-zero frame rate) it is never
overwritten by any later byte of the stream; a line that parses to the
sentinel value leaves the field unset and a later line may still set
it. -/
theorem c4_amended_fields_frozen (now : Nat) (s : CPN) (cs : List Char) :
    (s.duration ≠ 0 → (s.processChars now cs).duration = s.duration)
    ∧ (s.source ≠ "" → (s.processChars now cs).source = s.source)
    ∧ (s.fps ≠ 0 → (s.processChars now cs).fps = s.fps) := by
  induction cs generalizing s with
  | nil => exact ⟨fun _ => rfl, fun _ => rfl, fun _ => rfl⟩
  | cons c cs ih =>
    refine ⟨fun h => ?_, fun h => ?_, fun h => ?_⟩
    · show ((s.processChar now c).1.processChars now cs).duration = s.duration
      rw [(ih (s.processChar now c).1).1
            (by rw [processChar_duration_frozen now s c h]; exact h),
          processChar_duration_frozen now s c h]
    · show ((s.processChar now c).1.processChars now cs).source = s.source
      rw [(ih (s.processChar now c).1).2.1
            (by rw [processChar_source_frozen now s c h]; exact h),
          processChar_source_frozen now s c h]
    · show ((s.processChar now c).1.processChars now cs).fps = s.fps
      rw [(ih (s.processChar now c).1).2.2
            (by rw [processChar_fps_frozen now s c h]; exact h),
          processChar_fps_frozen now s c h]

/-- Claim C4 witness: a state with all fields known is not disturbed by a
further duration/source/fps-bearing stream. -/
theorem c4_amended_fields_frozen_witness :
    (knownState.processChars 0 scenario2Input).duration = knownState.duration
    ∧ (knownState.processChars 0 scenario2Input).source = knownState.source
    ∧ (knownState.processChars 0 scenario2Input).fps = knownState.fps :=
  ⟨(c4_amended_fields_frozen 0 knownState scenario2Input).1 (by decide),
   (c4_amended_fields_frozen 0 knownState scenario2Input).2.1 (by decide),
   (c4_amended_fields_frozen 0 knownState scenario2Input).2.2 (by decide)⟩

/-- Claim C3: feeding `"29.97 fps"`, `"Duration: 00:01:30.00"`,
`"from 'clip.mp4':"`, `"time=00:00:45.00"` yields a frame-unit sample
with truncated rate 29, current `45*29 = 1305`, total `90*29 = 2610`, and
a rendered percentage of 50%. -/
theorem c3_scenario_frames :
    ((NewCPN false).processChars 0 scenario2Input).fps = 29
    ∧ ((NewCPN false).processChars 0 scenario2Input).duration = 90
    ∧ ((NewCPN false).processChars 0 scenario2Input).pbar
        = some { total := 2610, current := 1305, desc := "clip.mp4", unit := "frames",
                 useColors := false, lastUpdate := some 0 }
    ∧ (1305 : Int) = 45 * 29 ∧ (2610 : Int) = 90 * 29
    ∧ (((NewCPN false).processChars 0 scenario2Input).pbar).map PBar.percentage
        = some 50 := by
  have hpb : ((NewCPN false).processChars 0 scenario2Input).pbar
      = some { total := 2610, current := 1305, desc := "clip.mp4", unit := "frames",
               useColors := false, lastUpdate := some 0 } := rfl
  refine ⟨rfl, rfl, hpb, rfl, rfl, ?_⟩
  rw [hpb]
  show some (PBar.percentage _) = some 50
  norm_num [PBar.percentage]

/-- Claim C1: after the reading loop, a non-zero exit status of the
wrapped process replays exactly the buffered stderr content once and
propagates the status; a zero status exits 0 with nothing replayed; and
the buffer accumulated by `ProcessChar` is precisely the full byte stream
received. -/
theorem c1_failure_replay_and_status :
    (∀ (buf : String) (code : Int), code ≠ 0 → waitOutcome buf code = (buf, code))
    ∧ (∀ buf : String, waitOutcome buf 0 = ("", 0))
    ∧ (∀ (now : Nat) (s : CPN) (cs : List Char),
        ((s.processChars now cs).stderrBuffer).data = s.stderrBuffer.data ++ cs) := by
  refine ⟨?_, ?_, ?_⟩
  · intro buf code h
    unfold waitOutcome
    rw [if_pos h]
    rcases hb : buf with ⟨l⟩
    rcases l with _ | ⟨c, l⟩
    · rfl
    · rfl
  · intro buf
    unfold waitOutcome
    simp
  · intro now s cs
    induction cs generalizing s with
    | nil => simp [CPN.processChars]
    | cons c cs ih =>
      show (((s.processChar now c).1.processChars now cs).stderrBuffer).data = _
      rw [ih (s.processChar now c).1, processChar_stderrBuffer]
      simp

/-- Claim C1 witness: a failing run with buffered content, a clean run,
and the buffer accumulation on a concrete stream. -/
theorem c1_failure_replay_and_status_witness :
    waitOutcome "boom" 1 = ("boom", 1)
    ∧ waitOutcome "boom" 0 = ("", 0)
    ∧ (((NewCPN false).processChars 0 scenario2Input).stderrBuffer).data
        = (NewCPN false).stderrBuffer.data ++ scenario2Input :=
  ⟨c1_failure_replay_and_status.1 "boom" 1 (by decide),
   c1_failure_replay_and_status.2.1 "boom",
   c1_failure_replay_and_status.2.2 0 (NewCPN false) scenario2Input⟩

theorem runUpdates_chain (l : List (Nat × Int)) : ∀ pb : PBar,
    List.Chain' (fun a b => a + 50 ≤ b)
      (pb.lastUpdate.toList ++ (pb.runUpdates l).2) := by
  induction l with
  | nil =>
    intro pb
    simp only [PBar.runUpdates, List.append_nil]
    cases pb.lastUpdate <;> simp
  | cons hd tl ih =>
    intro pb
    obtain ⟨now, c⟩ := hd
    simp only [PBar.runUpdates]
    rcases h : pb.lastUpdate with _ | t
    · have hupd : pb.update now c = ({ pb with current := c, lastUpdate := some now }, true) := by
        simp only [PBar.update, h]
      rw [hupd]
      simpa using ih { pb with current := c, lastUpdate := some now }
    · by_cases hlt : now - t < 50
      · have hupd : pb.update now c = ({ pb with current := c }, false) := by
          simp only [PBar.update, h, if_pos hlt]
        rw [hupd, h]
        simpa using ih { pb with current := c, lastUpdate := some t }
      · have hupd : pb.update now c = ({ pb with current := c, lastUpdate := some now }, true) := by
          simp only [PBar.update, h, if_neg hlt]
        rw [hupd]
        have := ih { pb with current := c, lastUpdate := some now }
        simp only [Option.toList_some, List.singleton_append, List.cons_append,
          List.nil_append, if_true] at this ⊢
        rw [List.chain'_cons]
        exact ⟨by omega, this⟩

/-- Claim C5: renders triggered by `Update` are never closer than the
50ms minimum interval (over any sequence of timed updates from a fresh
bar, consecutive render instants are at least 50 apart); an `Update`
within 50ms of the previous render stores the new current value without
redrawing and without touching the render timestamp; `Finish` forces
`current = total` and renders unconditionally. -/
theorem c5_render_throttling :
    (∀ (pb : PBar) (l : List (Nat × Int)), pb.lastUpdate = none →
      List.Chain' (fun a b => a + 50 ≤ b) (pb.runUpdates l).2)
    ∧ (∀ (pb : PBar) (now : Nat) (c : Int) (t : Nat),
        pb.lastUpdate = some t → now - t < 50 →
        pb.update now c = ({ pb with current := c }, false))
    ∧ (∀ pb : PBar, pb.finish = ({ pb with current := pb.total }, true)) := by
  refine ⟨?_, ?_, ?_⟩
  · intro pb l h
    have := runUpdates_chain l pb
    rw [h] at this
    simpa using this
  · intro pb now c t ht hlt
    simp only [PBar.update, ht, if_pos hlt]
  · intro pb
    rfl

/-- Claim C5 witness: a render at 0 and at 60 (the intermediate update at
30 stores its value but is dropped), a throttled update, and a finish. -/
theorem c5_render_throttling_witness :
    List.Chain' (fun a b => a + 50 ≤ b)
      (samplePBar.runUpdates [(0, 10), (30, 20), (60, 30)]).2
    ∧ samplePBar2.update 120 7 = ({ samplePBar2 with current := 7 }, false)
    ∧ samplePBar.finish = ({ samplePBar with current := samplePBar.total }, true) :=
  ⟨c5_render_throttling.1 samplePBar [(0, 10), (30, 20), (60, 30)] rfl,
   c5_render_throttling.2.1 samplePBar2 120 7 100 rfl (by decide),
   c5_render_throttling.2.2 samplePBar⟩

/-- Claim C7: the program subscribes to both the interrupt and the
termination signal; when terminated by the interrupt signal it kills the
wrapped process and exits with `128 +` the number of the received
(interrupt) signal. -/
theorem c7_interrupt_exit_code (received : Nat) (h : received = sigint) :
    sigint ∈ subscribedSignals ∧ sigterm ∈ subscribedSignals
    ∧ (signalCase received).1 = true
    ∧ (signalCase received).2 = 128 + received := by
  subst h
  refine ⟨by decide, by decide, rfl, rfl⟩

/-- Claim C7 witness: the interrupt signal, number 2, gives exit 130. -/
theorem c7_interrupt_exit_code_witness :
    sigint ∈ subscribedSignals ∧ sigterm ∈ subscribedSignals
    ∧ (signalCase 2).1 = true ∧ (signalCase 2).2 = 128 + 2 :=
  c7_interrupt_exit_code 2 rfl

/-- Claim C8 counterexample: with total duration 90s, the progress lines
`time=00:00:45.00` then (50ms later) `time=00:00:30.00` give successive
rendered percentages 50% then 100/3% — the percentage computed across
successive updates of a session decreased. -/
theorem c8_counterexample :
    (((NewCPN false).processChars 0
        (durLine.data ++ ['\n'] ++ timeLine45.data ++ ['\n'])).pbar).map
          PBar.percentage = some 50
    ∧ ((((NewCPN false).processChars 0
          (durLine.data ++ ['\n'] ++ timeLine45.data ++ ['\n'])).processChars 100
            (timeLine30.data ++ ['\n'])).pbar).map PBar.percentage
        = some (100 / 3)
    ∧ ¬(50 : ℚ) ≤ 100 / 3 := by
  have h1 : ((NewCPN false).processChars 0
      (durLine.data ++ ['\n'] ++ timeLine45.data ++ ['\n'])).pbar
        = some { total := 90, current := 45, desc := "Processing", unit := "seconds",
                 useColors := false, lastUpdate := some 0 } := rfl
  have h2 : (((NewCPN false).processChars 0
      (durLine.data ++ ['\n'] ++ timeLine45.data ++ ['\n'])).processChars 100
        (timeLine30.data ++ ['\n'])).pbar
        = some { total := 90, current := 30, desc := "Processing", unit := "seconds",
                 useColors := false, lastUpdate := some 100 } := rfl
  refine ⟨?_, ?_, by norm_num⟩
  · rw [h1]
    show some (PBar.percentage _) = some 50
    norm_num [PBar.percentage]
  · rw [h2]
    show some (PBar.percentage _) = some (100 / 3)
    norm_num [PBar.percentage]

/-- Claim C8, amended: for a fixed total, the percentage computed by the
renderer is monotonically non-decreasing across successive progress
updates provided the updated current values are non-decreasing (the
percentage is `current/total*100`, a monotone function of `current` for
any fixed non-negative total). -/
theorem c8_amended_percentage_monotone (pb : PBar) (n1 n2 : Nat) (c1 c2 : Int)
    (htot : 0 ≤ pb.total) (hc : c1 ≤ c2) :
    ((pb.update n1 c1).1).percentage ≤ (((pb.update n1 c1).1.update n2 c2).1).percentage := by
  have hfst : ∀ (p : PBar) (n : Nat) (c : Int),
      (p.update n c).1.current = c ∧ (p.update n c).1.total = p.total := by
    intro p n c
    rcases hp : p.lastUpdate with _ | t
    · simp [PBar.update, hp]
    · simp only [PBar.update, hp]
      split_ifs <;> simp
  unfold PBar.percentage
  rw [(hfst pb n1 c1).1, (hfst pb n1 c1).2,
      (hfst (pb.update n1 c1).1 n2 c2).1, (hfst (pb.update n1 c1).1 n2 c2).2,
      (hfst pb n1 c1).2]
  by_cases h0 : pb.total = 0
  · simp [h0]
  · rw [if_neg h0, if_neg h0]
    have hpos : (0 : ℚ) < (pb.total : ℚ) := by
      exact_mod_cast lt_of_le_of_ne htot (Ne.symm h0)
    have hcq : (c1 : ℚ) ≤ (c2 : ℚ) := by exact_mod_cast hc
    gcongr

/-- Claim C8 witness: updates 30 then 45 on a bar with total 100. -/
theorem c8_amended_percentage_monotone_witness :
    ((samplePBar.update 0 30).1).percentage
      ≤ (((samplePBar.update 0 30).1.update 60 45).1).percentage :=
  c8_amended_percentage_monotone samplePBar 0 60 30 45 (by decide) (by decide)

/-! ### Lemmas about `stripANSI` -/

theorem stripEscAux_nil : stripEscAux [] = [] := by
  simp [stripEscAux]

theorem stripEscAux_cons_ne (c : Char) (rest : List Char) (hc : c ≠ escChar) :
    stripEscAux (c :: rest) = c :: stripEscAux rest := by
  rw [stripEscAux]
  simp [hc]

theorem stripEscAux_cons_esc (rest rest2 : List Char)
    (hm : matchEscTail rest = some rest2) :
    stripEscAux (escChar :: rest) = stripEscAux rest2 := by
  rw [stripEscAux]
  rw [if_pos rfl]
  split
  · next r2 heq =>
      rw [hm] at heq
      injection heq with h2
      rw [h2]
  · next heq =>
      rw [hm] at heq
      cases heq

theorem noEsc_append {a b : List Char} (ha : noEscL a) (hb : noEscL b) :
    noEscL (a ++ b) := by
  intro c hc
  rcases List.mem_append.mp hc with h | h
  · exact ha c h
  · exact hb c h

theorem stripEscAux_of_noEsc (l : List Char) (h : noEscL l) :
    stripEscAux l = l := by
  induction l with
  | nil => exact stripEscAux_nil
  | cons c rest ih =>
    rw [stripEscAux_cons_ne c rest (h c (List.mem_cons_self c rest)),
        ih (fun x hx => h x (List.mem_cons_of_mem c hx))]

theorem stripEscAux_append_noEsc (a b : List Char) (ha : noEscL a) :
    stripEscAux (a ++ b) = a ++ stripEscAux b := by
  induction a with
  | nil => simp
  | cons c rest ih =>
    rw [List.cons_append,
        stripEscAux_cons_ne c (rest ++ b) (ha c (List.mem_cons_self c rest)),
        ih (fun x hx => ha x (List.mem_cons_of_mem c hx)), List.cons_append]

theorem dropWhile_params (ps : List Char) (x : Char) (l : List Char)
    (hps : ∀ c ∈ ps, isCsiParam c = true) (hx : isCsiParam x = false) :
    (ps ++ x :: l).dropWhile isCsiParam = x :: l := by
  induction ps with
  | nil => simp [List.dropWhile_cons, hx]
  | cons p ps ih =>
    rw [List.cons_append, List.dropWhile_cons, hps p (List.mem_cons_self p ps)]
    simp only [if_true]
    exact ih (fun c hc => hps c (List.mem_cons_of_mem p hc))

theorem stripEscAux_sgr (ps l : List Char)
    (hps : ∀ c ∈ ps, isCsiParam c = true) :
    stripEscAux (escChar :: '[' :: ps ++ 'm' :: l) = stripEscAux l := by
  have hm : matchEscTail ('[' :: (ps ++ 'm' :: l)) = some l := by
    have hstep : matchEscTail ('[' :: (ps ++ 'm' :: l))
        = (match (ps ++ 'm' :: l).dropWhile isCsiParam with
           | c2 :: rest2 => if isCsiFinal c2 then some rest2 else none
           | [] => none) := by
      rw [matchEscTail]
      simp
    rw [hstep, dropWhile_params ps 'm' l hps (by decide)]
    show (if isCsiFinal 'm' then some l else none) = some l
    rw [if_pos (by decide : isCsiFinal 'm' = true)]
  exact stripEscAux_cons_esc _ _ hm

theorem stripEscAux_reset (l : List Char) :
    stripEscAux (resetS ++ l) = stripEscAux l :=
  stripEscAux_sgr ['0'] l (by decide)

theorem stripEscAux_yellow (l : List Char) :
    stripEscAux (yellowS ++ l) = stripEscAux l :=
  stripEscAux_sgr ['3', '3'] l (by decide)

theorem stripEscAux_red (l : List Char) :
    stripEscAux (redS ++ l) = stripEscAux l :=
  stripEscAux_sgr ['3', '1'] l (by decide)

theorem stripEscAux_blue (l : List Char) :
    stripEscAux (blueS ++ l) = stripEscAux l :=
  stripEscAux_sgr ['3', '4'] l (by decide)

theorem asciiFilter_idem (l : List Char) :
    asciiFilter (asciiFilter l) = asciiFilter l := by
  induction l with
  | nil => rfl
  | cons c rest ih =>
    show (if 127 < (if 127 < c.toNat then ' ' else c).toNat then ' '
          else (if 127 < c.toNat then ' ' else c)) :: asciiFilter (asciiFilter rest)
        = (if 127 < c.toNat then ' ' else c) :: asciiFilter rest
    rw [ih]
    by_cases hc : 127 < c.toNat
    · simp [hc]
    · simp [hc]

theorem asciiFilter_noEsc (l : List Char) (h : noEscL l) :
    noEscL (asciiFilter l) := by
  intro c hc
  rcases List.mem_map.mp hc with ⟨a, ha, rfl⟩
  by_cases h127 : 127 < a.toNat
  · simp only [h127, if_true]
    decide
  · simp only [h127, if_false]
    exact h a ha

theorem strip_idem_of_noEsc (l : List Char) (h : noEscL (stripEscAux l)) :
    stripANSIL (stripANSIL l) = stripANSIL l := by
  unfold stripANSIL
  rw [stripEscAux_of_noEsc _ (asciiFilter_noEsc _ h), asciiFilter_idem]

/-! ### The formatted chunks are escape-free -/

theorem dChar_ne_esc (n : Nat) : dChar n ≠ escChar := by
  unfold dChar
  split_ifs <;> decide

theorem natToCharsAux_noEsc (n : Nat) : ∀ acc, noEscL acc → noEscL (natToCharsAux n acc) := by
  induction n using Nat.strong_induction_on with
  | _ n ih =>
    intro acc hacc
    by_cases hn : n < 10
    · rw [natToCharsAux, if_pos hn]
      intro c hc
      rcases List.mem_cons.mp hc with rfl | hc
      · exact dChar_ne_esc n
      · exact hacc c hc
    · rw [natToCharsAux, if_neg hn]
      refine ih (n / 10) (Nat.div_lt_self (by omega) (by omega)) _ ?_
      intro c hc
      rcases List.mem_cons.mp hc with rfl | hc
      · exact dChar_ne_esc (n % 10)
      · exact hacc c hc

theorem natStr_noEsc (n : Nat) : noEscL (natStr n).data :=
  natToCharsAux_noEsc n [] (by intro c hc; cases hc)

theorem intStr_noEsc (i : Int) : noEscL (intStr i).data := by
  unfold intStr
  split_ifs
  · show noEscL ('-' :: natToCharsAux i.natAbs [])
    intro c hc
    rcases List.mem_cons.mp hc with rfl | hc
    · decide
    · exact natToCharsAux_noEsc i.natAbs [] (by intro x hx; cases hx) c hc
  · exact natStr_noEsc i.toNat

theorem str_data_append (a b : String) : (a ++ b).data = a.data ++ b.data := rfl

theorem fmt1_noEsc (q : ℚ) : noEscL (fmt1 q).data := by
  unfold fmt1
  simp only [str_data_append]
  refine noEsc_append (noEsc_append (noEsc_append ?_ (natStr_noEsc _)) (by decide)) ?_
  · split_ifs <;> decide
  · intro c hc
    rcases List.mem_cons.mp hc with rfl | hc
    · exact dChar_ne_esc _
    · cases hc

theorem fmt0_noEsc (q : ℚ) : noEscL (fmt0 q).data :=
  intStr_noEsc _

theorem pad2_noEsc (n : Nat) : noEscL (pad2 n) := by
  unfold pad2
  split_ifs
  · intro c hc
    rcases List.mem_cons.mp hc with rfl | hc
    · decide
    · rcases List.mem_cons.mp hc with rfl | hc
      · exact dChar_ne_esc n
      · cases hc
  · exact natToCharsAux_noEsc n [] (by intro x hx; cases hx)

theorem formatDurationSimple_noEsc (d : Int) :
    noEscL (formatDurationSimple d).data := by
  unfold formatDurationSimple
  split_ifs
  · decide
  · refine noEsc_append (pad2_noEsc _) ?_
    intro c hc
    rcases List.mem_cons.mp hc with rfl | hc
    · decide
    · exact pad2_noEsc _ c hc

/-! ### The trailing info string under the strip -/

theorem rightInfo_plain_noEsc (percentage rate : ℚ) (current total remaining : Int) :
    noEscL (rightInfoChars false percentage current total rate remaining) := by
  show noEscL (" ".data ++ (fmt1 percentage).data ++ "%".data
      ++ sepS ++ (intStr current).data ++ "/".data ++ (intStr total).data
      ++ sepS ++ (fmt0 rate).data ++ "fps".data
      ++ sepS ++ "ETA ".data ++ (formatDurationSimple remaining).data)
  exact noEsc_append (noEsc_append (noEsc_append (noEsc_append (noEsc_append
    (noEsc_append (noEsc_append (noEsc_append (noEsc_append (noEsc_append
    (noEsc_append (noEsc_append (by decide) (fmt1_noEsc percentage)) (by decide))
    (by decide)) (intStr_noEsc current)) (by decide)) (intStr_noEsc total))
    (by decide)) (fmt0_noEsc rate)) (by decide)) (by decide)) (by decide))
    (formatDurationSimple_noEsc remaining)

theorem stripEscAux_rightInfo_colored (percentage rate : ℚ)
    (current total remaining : Int) :
    stripEscAux (rightInfoChars true percentage current total rate remaining)
      = rightInfoChars false percentage current total rate remaining := by
  show stripEscAux (" ".data ++ yellowS ++ (fmt1 percentage).data ++ "%".data ++ resetS
      ++ sepS ++ (intStr current).data ++ "/".data ++ (intStr total).data
      ++ sepS ++ redS ++ (fmt0 rate).data ++ "fps".data ++ resetS
      ++ sepS ++ "ETA ".data ++ blueS ++ (formatDurationSimple remaining).data ++ resetS)
    = _
  simp only [List.append_assoc]
  rw [stripEscAux_append_noEsc _ _ (by decide), stripEscAux_yellow,
      stripEscAux_append_noEsc _ _ (fmt1_noEsc percentage),
      stripEscAux_append_noEsc _ _ (by decide), stripEscAux_reset,
      stripEscAux_append_noEsc _ _ (by decide),
      stripEscAux_append_noEsc _ _ (intStr_noEsc current),
      stripEscAux_append_noEsc _ _ (by decide),
      stripEscAux_append_noEsc _ _ (intStr_noEsc total),
      stripEscAux_append_noEsc _ _ (by decide), stripEscAux_red,
      stripEscAux_append_noEsc _ _ (fmt0_noEsc rate),
      stripEscAux_append_noEsc _ _ (by decide), stripEscAux_reset,
      stripEscAux_append_noEsc _ _ (by decide),
      stripEscAux_append_noEsc _ _ (by decide), stripEscAux_blue,
      stripEscAux_append_noEsc _ _ (formatDurationSimple_noEsc remaining),
      show stripEscAux resetS = [] from by
        rw [show (resetS : List Char) = resetS ++ [] from (List.append_nil _).symm,
            stripEscAux_reset, stripEscAux_nil]]
  simp [rightInfoChars, List.append_assoc]

/-- Claim C6: the width-measuring strip (remove ANSI escape sequences,
then replace every non-ASCII character by a single space) is idempotent
on every rendered trailing-info string: stripping twice equals stripping
once, for any parameter values and with colors on or off. -/
theorem c6_stripANSI_idempotent (useColors : Bool) (percentage rate : ℚ)
    (current total remaining : Int) :
    stripANSI (stripANSI (rightInfoStr useColors percentage current total rate remaining))
      = stripANSI (rightInfoStr useColors percentage current total rate remaining) := by
  have key : noEscL (stripEscAux (rightInfoChars useColors percentage current total rate remaining)) := by
    cases useColors
    · rw [stripEscAux_of_noEsc _ (rightInfo_plain_noEsc percentage rate current total remaining)]
      exact rightInfo_plain_noEsc percentage rate current total remaining
    · rw [stripEscAux_rightInfo_colored percentage rate current total remaining]
      exact rightInfo_plain_noEsc percentage rate current total remaining
  show (⟨stripANSIL (stripANSIL (rightInfoChars useColors percentage current total rate remaining))⟩ : String)
      = ⟨stripANSIL (rightInfoChars useColors percentage current total rate remaining)⟩
  exact congrArg String.mk (strip_idem_of_noEsc _ key)

end Fpb
